import Mathlib

/-!
Verification development for a single-file BERT implementation
(pytorch_bert.py).  The Python source is shallowly embedded: tensors
become total functions into the reals, the module hyperparameters
(which the source reads as ambient globals) become an explicit
configuration record, PyTorch process-global randomness becomes an
explicit stream of naturals, Python floats become exact rationals or
reals, and fallible Python code (NameError / TypeError / ValueError)
returns Except values.
-/

set_option maxHeartbeats 1000000

/-- The hyperparameters the script sets at lines 244-252 and that every
component reads as ambient globals, plus the derived vocabulary size. -/
structure Config where
  maxlen : ℕ
  batch_size : ℕ
  max_pred : ℕ
  n_layers : ℕ
  n_heads : ℕ
  d_model : ℕ
  d_ff : ℕ
  d_k : ℕ
  d_v : ℕ
  n_segments : ℕ
  vocab_size : ℕ
  deriving DecidableEq

/-- Model of Python's process-global random state: an arbitrary stream of
naturals together with a cursor.  Every primitive of the random module
consumes one stream value and advances the cursor. -/
structure Rng where
  stream : ℕ → ℕ
  idx : ℕ

def rngNext (r : Rng) : ℕ × Rng :=
  (r.stream r.idx, ⟨r.stream, r.idx + 1⟩)

/-- Model of random.randrange(n): some value in [0, n). -/
def pyRandrange (n : ℕ) (r : Rng) : ℕ × Rng :=
  ((rngNext r).1 % n, (rngNext r).2)

/-- Model of random.random(): a value in [0, 1) quantized to
thousandths, represented by its numerator (the calls in the source only
compare the result with the literals 0.8 and 0.5, so u/1000 < 0.8 is
exactly u < 800 and u/1000 < 0.5 is exactly u < 500). -/
def pyRandom (r : Rng) : ℕ × Rng :=
  ((rngNext r).1 % 1000, (rngNext r).2)

/-- Model of random.randint(a, b): some value in [a, b]. -/
def pyRandint (a b : ℕ) (r : Rng) : ℕ × Rng :=
  (a + (rngNext r).1 % (b - a + 1), (rngNext r).2)

/-- Python's round() applied to the nonnegative fraction a / b (b > 0):
round half to even (banker's rounding). -/
def roundHalfEven (a b : ℕ) : ℕ :=
  let q := a / b
  let r := a % b
  if 2 * r < b then q
  else if b < 2 * r then q + 1
  else if q % 2 = 0 then q else q + 1

/-- One training example as appended to the batch at lines 197/200:
[input_ids, segment_ids, masked_tokens, masked_pos, isNext]. -/
structure BatchExample where
  input_ids : List ℕ
  segment_ids : List ℕ
  masked_tokens : List ℕ
  masked_pos : List ℕ
  isNext : Bool
  deriving DecidableEq

/-- The list comprehension at lines 172-173: indices (counting from i) of
the tokens that are neither [CLS] (id 1) nor [SEP] (id 2). -/
def candPositions : List ℕ → ℕ → List ℕ
  | [], _ => []
  | t :: rest, i =>
      if t ≠ 1 ∧ t ≠ 2 then i :: candPositions rest (i + 1)
      else candPositions rest (i + 1)

/-- Remove the (k mod length)-th element of a list, returning it and the
remainder.  Building block of the shuffle model. -/
def pickOut (l : List ℕ) (k : ℕ) : ℕ × List ℕ :=
  let i := k % l.length
  (l.getD i 0, l.take i ++ l.drop (i + 1))

/-- Model of random.shuffle: a stream-driven selection of a permutation
(repeatedly extract the element the stream points at).  Called with fuel
equal to the list length. -/
def shuffleModel : ℕ → List ℕ → Rng → List ℕ × Rng
  | 0, _, r => ([], r)
  | f + 1, l, r =>
      if l = [] then ([], r)
      else
        let v := (rngNext r).1
        let r1 := (rngNext r).2
        let x := (pickOut l v).1
        let rest := (pickOut l v).2
        let out := shuffleModel f rest r1
        (x :: out.1, out.2)

/-- Result of the masking loop at lines 176-183: the (possibly mutated)
input ids, the recorded original tokens, the recorded positions, and the
advanced random state. -/
structure MaskLoopOut where
  ids : List ℕ
  toks : List ℕ
  poss : List ℕ
  rng : Rng

/-- The loop `for pos in cand_maked_pos[:n_pred]` (lines 176-183): record
the position and its current token; with probability 0.8 overwrite the
token with [MASK] (id 3), else with probability 0.5 overwrite it with a
random vocabulary id (word_dict[number_dict[index]] = index), else leave
it unchanged. -/
def maskLoop (cfg : Config) : List ℕ → List ℕ → Rng → MaskLoopOut
  | [], ids, r => ⟨ids, [], [], r⟩
  | pos :: rest, ids, r =>
      let tok := ids.getD pos 0
      let u := (pyRandom r).1
      let r1 := (pyRandom r).2
      let step : List ℕ × Rng :=
        if u < 800 then (ids.set pos 3, r1)
        else
          let u2 := (pyRandom r1).1
          let r2 := (pyRandom r1).2
          if u2 < 500 then
            (ids.set pos ((pyRandint 0 (cfg.vocab_size - 1) r2).1),
             (pyRandint 0 (cfg.vocab_size - 1) r2).2)
          else (ids, r2)
      let out := maskLoop cfg rest step.1 step.2
      ⟨out.ids, tok :: out.toks, pos :: out.poss, out.rng⟩

/-- The four lists built for one example before the label is attached. -/
structure ExData where
  input_ids : List ℕ
  segment_ids : List ℕ
  masked_tokens : List ℕ
  masked_pos : List ℕ
  deriving DecidableEq

/-- input_ids before masking (line 167): [CLS] + a + [SEP] + b + [SEP],
with word_dict values [CLS] = 1 and [SEP] = 2. -/
def exIds0 (ta tb : List ℕ) : List ℕ :=
  1 :: (ta ++ 2 :: (tb ++ [2]))

/-- n_pred (line 171): min(max_pred, max(1, int(round(len(input_ids) *
0.15)))); the float literal 0.15 is the exact rational 3/20, so the
rounded quantity is the fraction 3 * len / 20. -/
def exNPred (cfg : Config) (ta tb : List ℕ) : ℕ :=
  min cfg.max_pred (max 1 (roundHalfEven (3 * (exIds0 ta tb).length) 20))

/-- cand_maked_pos (lines 172-173). -/
def exCand (ta tb : List ℕ) : List ℕ :=
  candPositions (exIds0 ta tb) 0

/-- Lines 166-194 of make_batch: build input_ids = [CLS] + a + [SEP] + b
+ [SEP] and the segment ids, choose n_pred, shuffle the candidate
positions, run the masking loop, then zero-pad input_ids/segment_ids to
maxlen and the masked lists to max_pred. -/
def makeExample (cfg : Config) (ta tb : List ℕ) (r : Rng) : ExData × Rng :=
  let ids0 : List ℕ := exIds0 ta tb
  let segs0 : List ℕ :=
    List.replicate (1 + ta.length + 1) 0 ++ List.replicate (tb.length + 1) 1
  let nPred : ℕ := exNPred cfg ta tb
  let cand := exCand ta tb
  let sh := shuffleModel cand.length cand r
  let ml := maskLoop cfg (sh.1.take nPred) ids0 sh.2
  let ids2 := ml.ids ++ List.replicate (cfg.maxlen - ml.ids.length) 0
  let segs2 := segs0 ++ List.replicate (cfg.maxlen - ml.ids.length) 0
  let mtoks := ml.toks ++ List.replicate (cfg.max_pred - nPred) 0
  let mposs := ml.poss ++ List.replicate (cfg.max_pred - nPred) 0
  (⟨ids2, segs2, mtoks, mposs⟩, ml.rng)

/-- The while loop of make_batch (lines 164-201), with explicit fuel:
draw two sentence indices, build an example, and append it labelled True
when the sentences are adjacent (and the positive half is not yet full),
labelled False when they are not adjacent (and the negative half is not
yet full).  The loop condition and the half-batch comparisons are the
Python comparisons of the integer counters with the float batch_size/2;
for an integer counter p, p != batch_size/2 holds exactly when
2*p != batch_size, and p < batch_size/2 exactly when 2*p < batch_size. -/
def makeBatchGo (cfg : Config) (tl : List (List ℕ)) :
    ℕ → List BatchExample → ℕ → ℕ → Rng → Option (List BatchExample)
  | 0, _, _, _, _ => none
  | fuel + 1, acc, pos, neg, r =>
      if 2 * pos ≠ cfg.batch_size ∨ 2 * neg ≠ cfg.batch_size then
        let aIdx := (pyRandrange tl.length r).1
        let r1 := (pyRandrange tl.length r).2
        let bIdx := (pyRandrange tl.length r1).1
        let r2 := (pyRandrange tl.length r1).2
        let d := (makeExample cfg (tl.getD aIdx []) (tl.getD bIdx []) r2).1
        let r3 := (makeExample cfg (tl.getD aIdx []) (tl.getD bIdx []) r2).2
        if aIdx + 1 = bIdx ∧ 2 * pos < cfg.batch_size then
          makeBatchGo cfg tl fuel
            (acc ++ [⟨d.input_ids, d.segment_ids, d.masked_tokens, d.masked_pos, true⟩])
            (pos + 1) neg r3
        else if aIdx + 1 ≠ bIdx ∧ 2 * neg < cfg.batch_size then
          makeBatchGo cfg tl fuel
            (acc ++ [⟨d.input_ids, d.segment_ids, d.masked_tokens, d.masked_pos, false⟩])
            pos (neg + 1) r3
        else makeBatchGo cfg tl fuel acc pos neg r3
      else some acc

/-- make_batch (lines 161-202) over an explicit token_list and random
stream; none means the loop did not terminate within the given fuel. -/
def makeBatch (cfg : Config) (tl : List (List ℕ)) (fuel : ℕ) (r : Rng) :
    Option (List BatchExample) :=
  makeBatchGo cfg tl fuel [] 0 0 r

/-- The per-example shape facts claimed of make_batch output. -/
def goodExample (cfg : Config) (e : BatchExample) : Prop :=
  e.input_ids.length = cfg.maxlen ∧
  e.segment_ids.length = cfg.maxlen ∧
  e.masked_tokens.length = cfg.max_pred ∧
  e.masked_pos.length = cfg.max_pred ∧
  ∃ p ∈ e.masked_pos, p ≠ 0

/-!
Parameter storage model for BERT.__init__ (lines 207-222).  PyTorch
parameters are heap-allocated tensors; a module field holds a reference.
We model the heap as cell-index-addressed storage of rational matrices
and record, in allocation order, which cell each parameter of
BERT.__init__ refers to.  The single interesting step is line 221,
self.decoder.weight = embed_weight, which re-points the decoder weight
reference at the token embedding cell (aliasing, not copying).
-/

/-- Cell-addressed storage: cell index, then row and column. -/
def Heap : Type := ℕ → ℕ → ℕ → ℚ

/-- Overwrite one entry of one cell. -/
def heapWriteEntry (h : Heap) (c i j : ℕ) (v : ℚ) : Heap :=
  fun c2 i2 j2 => if c2 = c ∧ i2 = i ∧ j2 = j then v else h c2 i2 j2

/-- The heap cells the parameters of BERT.__init__ refer to. -/
structure BertRefs where
  tokenEmbW : ℕ
  posEmbW : ℕ
  segEmbW : ℕ
  embNormW : ℕ
  embNormB : ℕ
  fcW : ℕ
  fcB : ℕ
  linW : ℕ
  linB : ℕ
  normW : ℕ
  normB : ℕ
  clsW : ℕ
  clsB : ℕ
  decoderW : ℕ
  decoderBias : ℕ

/-- Allocation order of BERT.__init__ (lines 209-222): EmbeddingLayer
allocates 5 cells (token/position/segment tables, LayerNorm scale and
shift); each of the n_layers EncoderLayer values allocates 10 cells
(WQ, WK, WV, fc1, fc2 - a weight and a bias each); then fc, linear,
norm, classifier; the decoder Linear (bias=False) allocates one weight
cell which line 221 immediately re-points at the token embedding cell;
decoder_bias is a fresh cell. -/
def bertInitRefs (cfg : Config) : BertRefs :=
  let tok := 0
  let afterLayers := 5 + 10 * cfg.n_layers
  ⟨tok, 1, 2, 3, 4,
   afterLayers, afterLayers + 1, afterLayers + 2, afterLayers + 3,
   afterLayers + 4, afterLayers + 5, afterLayers + 6, afterLayers + 7,
   tok,
   afterLayers + 9⟩

/-!
The numerical model.  Tensors are total functions into ℝ; a tensor of
rank 3 (batch, position, width) is T3, of rank 4 (batch, head, position,
width) is T4.  Dimensions are carried by the surrounding code (sums
range over the configured sizes), matching how the source's array
shapes are determined by the hyperparameter globals.
-/

noncomputable section

def T3 : Type := ℕ → ℕ → ℕ → ℝ

def T4 : Type := ℕ → ℕ → ℕ → ℕ → ℝ

/-- An nn.Linear value: input width, output width, weight matrix
(out x in), and an optional bias vector (nn.Linear's default is
bias=True; bias=False gives none). -/
structure LinearP where
  inF : ℕ
  outF : ℕ
  weight : ℕ → ℕ → ℝ
  bias : Option (ℕ → ℝ)

/-- The bias vector actually added by an nn.Linear: its bias when
present, zero otherwise. -/
def biasVal (l : LinearP) (o : ℕ) : ℝ :=
  match l.bias with
  | some b => b o
  | none => 0

/-- y = W x + b: matrix-vector product over the input width plus the
(optional) bias. -/
def applyLinear (l : LinearP) (x : ℕ → ℝ) (o : ℕ) : ℝ :=
  (∑ j ∈ Finset.range l.inF, l.weight o j * x j) + biasVal l o

/-- The weight-only part of an nn.Linear application. -/
def matVec (l : LinearP) (x : ℕ → ℝ) (o : ℕ) : ℝ :=
  ∑ j ∈ Finset.range l.inF, l.weight o j * x j

/-- One value drawn from the global random stream, mapped into a small
symmetric range (a model of the distribution torch uses to initialize
nn.Linear parameters; the exact distribution is immaterial here). -/
def drawAt (r : Rng) (k : ℕ) : ℝ :=
  (((r.stream (r.idx + k) : ℕ) : ℝ) - 500) / 1000

def rngAdvance (r : Rng) (n : ℕ) : Rng :=
  ⟨r.stream, r.idx + n⟩

/-- Model of nn.Linear(inF, outF) construction: draws the weight matrix
from the global random stream and, when withBias is true (the default),
also draws a bias vector. -/
def nnLinearInit (inF outF : ℕ) (withBias : Bool) (r : Rng) : LinearP × Rng :=
  let w : ℕ → ℕ → ℝ := fun o i => drawAt r (o * inF + i)
  let nW := outF * inF
  if withBias then
    (⟨inF, outF, w, some (fun o => drawAt r (nW + o))⟩, rngAdvance r (nW + outF))
  else
    (⟨inF, outF, w, none⟩, rngAdvance r nW)

/-- The three projections allocated by MultiHeadAttention.__init__
(lines 102-104): nn.Linear(d_model, d_k * n_heads) for WQ and WK,
nn.Linear(d_model, d_v * n_heads) for WV.  No bias argument is passed,
so all three use nn.Linear's default bias=True. -/
structure MhaParams where
  WQ : LinearP
  WK : LinearP
  WV : LinearP

def mhaInit (cfg : Config) (r : Rng) : MhaParams × Rng :=
  let q := nnLinearInit cfg.d_model (cfg.d_k * cfg.n_heads) true r
  let k := nnLinearInit cfg.d_model (cfg.d_k * cfg.n_heads) true q.2
  let v := nnLinearInit cfg.d_model (cfg.d_v * cfg.n_heads) true k.2
  (⟨q.1, k.1, v.1⟩, v.2)

/-- gelu (lines 155-157): x * 0.5 * (1.0 + torch.erf(x / math.sqrt(2.0))).
The error function is not part of the model; it is passed in as an
arbitrary function. -/
def gelu (erf : ℝ → ℝ) (x : ℝ) : ℝ :=
  x * (1/2) * (1 + erf (x / Real.sqrt 2))

/-- The spec's formula for GELU, written from the spec sentence
"GELU: x·0.5·(1+erf(x/√2))", to be compared with the source's gelu. -/
def geluSpec (erf : ℝ → ℝ) (x : ℝ) : ℝ :=
  x * (1/2) * (1 + erf (x / Real.sqrt 2))

/-- The two projections allocated by PositionWiseFeedForward.__init__
(lines 146-147). -/
structure PwffParams where
  fc1 : LinearP
  fc2 : LinearP

def pwffInit (cfg : Config) (r : Rng) : PwffParams × Rng :=
  let f1 := nnLinearInit cfg.d_model cfg.d_ff true r
  let f2 := nnLinearInit cfg.d_ff cfg.d_model true f1.2
  (⟨f1.1, f2.1⟩, f2.2)

/-- PositionWiseFeedForward.forward on one position vector:
fc2(gelu(fc1(x))) (line 151). -/
def pwffApply (p : PwffParams) (erf : ℝ → ℝ) (v : ℕ → ℝ) (i : ℕ) : ℝ :=
  applyLinear p.fc2 (fun j => gelu erf (applyLinear p.fc1 v j)) i

/-- PositionWiseFeedForward.forward on a (batch, len, d_model) tensor
(lines 149-151): the same map at every batch element and position. -/
def pwff_forward (p : PwffParams) (erf : ℝ → ℝ) (x : T3) : T3 :=
  fun b l => pwffApply p erf (x b l)

/-- nn.LayerNorm(d) application with learned scale w and shift b:
per-vector zero mean, unit variance (biased variance, eps = 1e-5). -/
def layerNormApply (d : ℕ) (w b : ℕ → ℝ) (x : ℕ → ℝ) : ℕ → ℝ :=
  let mu := (∑ i ∈ Finset.range d, x i) / d
  let va := (∑ i ∈ Finset.range d, (x i - mu) ^ 2) / d
  fun i => (x i - mu) / Real.sqrt (va + 1/100000) * w i + b i

/-- The parameters of EmbeddingLayer (lines 41-44): three embedding
tables (id to row) and the LayerNorm scale/shift. -/
structure EmbParams where
  tokenEmb : ℕ → ℕ → ℝ
  posEmb : ℕ → ℕ → ℝ
  segEmb : ℕ → ℕ → ℝ
  normW : ℕ → ℝ
  normB : ℕ → ℝ

/-- EmbeddingLayer.forward (lines 46-52): token, position and segment
lookups summed elementwise, then LayerNorm; the position index is the
sequence position itself (torch.arange expanded over the batch). -/
def embeddingApply (cfg : Config) (p : EmbParams) (ids segs : ℕ → ℕ → ℕ)
    (b l : ℕ) : ℕ → ℝ :=
  layerNormApply cfg.d_model p.normW p.normB
    (fun i => p.tokenEmb (ids b l) i + p.posEmb l i + p.segEmb (segs b l) i)

/-- get_attention_pad_mask (lines 63-67): true at (b, i, j) iff the key
sequence's j-th token id is 0 ([PAD]); the query position i is ignored
(the row is expanded over len_q). -/
def get_attention_pad_mask (seq_q seq_k : ℕ → ℕ → ℕ) : ℕ → ℕ → ℕ → Bool :=
  fun b _i j => seq_k b j == 0

/-- scores = Q K^T / sqrt(d_k) (line 135): dot product over the head
width axis, scaled. -/
def sdpaScores (cfg : Config) (Q K : T4) : T4 :=
  fun b h i j =>
    (∑ w ∈ Finset.range cfg.d_k, Q b h i w * K b h j w) / Real.sqrt (cfg.d_k : ℝ)

/-- scores.masked_fill_(attn_mask, -1e9) (line 136): where the mask is
true the score becomes -10^9, elsewhere it is unchanged. -/
def sdpaMaskedScores (cfg : Config) (Q K : T4) (mask : ℕ → ℕ → ℕ → ℕ → Bool) : T4 :=
  fun b h i j =>
    if mask b h i j = true then -(10 ^ 9 : ℝ) else sdpaScores cfg Q K b h i j

/-- attn = Softmax(dim=-1)(scores) (line 137): rowwise softmax over the
key axis, whose length is lk. -/
def sdpaAttn (cfg : Config) (lk : ℕ) (Q K : T4) (mask : ℕ → ℕ → ℕ → ℕ → Bool) : T4 :=
  fun b h i j =>
    Real.exp (sdpaMaskedScores cfg Q K mask b h i j) /
      ∑ k ∈ Finset.range lk, Real.exp (sdpaMaskedScores cfg Q K mask b h i k)

/-- context = attn V (line 138): weighted sum of the Value rows. -/
def sdpaContext (cfg : Config) (lk : ℕ) (Q K V : T4)
    (mask : ℕ → ℕ → ℕ → ℕ → Bool) : T4 :=
  fun b h i w =>
    ∑ j ∈ Finset.range lk, sdpaAttn cfg lk Q K mask b h i j * V b h j w

/-- A Python value in the scope of ScaledDotProductAttention.forward:
the module object, a real tensor, or a boolean tensor. -/
inductive PyVal where
  | module : PyVal
  | tensor : T4 → PyVal
  | boolTensor : (ℕ → ℕ → ℕ → ℕ → Bool) → PyVal

/-- Name lookup in a Python scope: a NameError when the name is absent. -/
def pyLookup {α : Type} (env : List (String × α)) (n : String) : Except String α :=
  match env.find? (fun p => p.1 == n) with
  | some p => Except.ok p.2
  | none => Except.error ("NameError: name '" ++ n ++ "' is not defined")

/-- The local scope of ScaledDotProductAttention.forward after lines
135-138 have run: the parameters self, Q, K, V, attn_mask and the
assigned locals scores (masked in place), attn, context. -/
def sdpaLocals (cfg : Config) (lk : ℕ) (Q K V : T4)
    (attn_mask : ℕ → ℕ → ℕ → ℕ → Bool) : List (String × PyVal) :=
  [("self", PyVal.module),
   ("Q", PyVal.tensor Q), ("K", PyVal.tensor K), ("V", PyVal.tensor V),
   ("attn_mask", PyVal.boolTensor attn_mask),
   ("scores", PyVal.tensor (sdpaMaskedScores cfg Q K attn_mask)),
   ("attn", PyVal.tensor (sdpaAttn cfg lk Q K attn_mask)),
   ("context", PyVal.tensor (sdpaContext cfg lk Q K V attn_mask))]

/-- ScaledDotProductAttention.forward (lines 134-139).  Line 139 is
`return score, context, attn`: evaluating the tuple looks up the names
score, context, attn in the local scope, left to right. -/
def sdpa_forward (cfg : Config) (lk : ℕ) (Q K V : T4)
    (attn_mask : ℕ → ℕ → ℕ → ℕ → Bool) : Except String (PyVal × PyVal × PyVal) := do
  let env := sdpaLocals cfg lk Q K V attn_mask
  let score ← pyLookup env "score"
  let context ← pyLookup env "context"
  let attn ← pyLookup env "attn"
  pure (score, context, attn)

/-- MultiHeadAttention.forward (lines 106-122).  The projections are
split into heads and transposed (index (h, w) of the projected vector is
position h * head_width + w), the mask is broadcast to all heads, and
the primitive is invoked.  Line 118 binds the primitive's result to the
pattern (context, attn); the primitive's return statement raises, and
even its intended 3-tuple could not be unpacked into two targets.  The
fresh nn.Linear / nn.LayerNorm built at lines 120 and 122 are therefore
unreachable. -/
def mha_forward (cfg : Config) (p : MhaParams) (L : ℕ) (Q K V : T3)
    (attn_mask : ℕ → ℕ → ℕ → Bool) : Except String (T3 × T4) := do
  let q_s : T4 := fun b h i w => applyLinear p.WQ (Q b i) (h * cfg.d_k + w)
  let k_s : T4 := fun b h j w => applyLinear p.WK (K b j) (h * cfg.d_k + w)
  let v_s : T4 := fun b h j w => applyLinear p.WV (V b j) (h * cfg.d_v + w)
  let mExp : ℕ → ℕ → ℕ → ℕ → Bool := fun b _h i j => attn_mask b i j
  let _t ← sdpa_forward cfg L q_s k_s v_s mExp
  Except.error "ValueError: too many values to unpack (expected 2)"

/-- A bound-method call in Python passes the instance as first
positional argument; a def with nParams parameters called with nArgs
explicit arguments therefore receives nArgs + 1. -/
def pyCallBoundArity (nParams nArgs : ℕ) (fname : String) : Except String Unit :=
  if nParams < nArgs + 1 then
    Except.error ("TypeError: " ++ fname ++ "() takes " ++ toString nParams ++
      " positional arguments but " ++ toString (nArgs + 1) ++ " were given")
  else Except.ok ()

/-- The parameters of one EncoderLayer (lines 79-82). -/
structure EncParams where
  mha : MhaParams
  ffn : PwffParams

/-- One element of the `for layer in self.layers` loop (line 228):
layer(output, mask).  EncoderLayer.forward (line 84) is defined as
forward(enc_inputs, enc_self_attn_mask) - without self - so the bound
call supplies 3 positional arguments to a 2-parameter function.  Lines
85-86 are modelled after the arity check. -/
def encoderLayerCall (cfg : Config) (lp : EncParams) (erf : ℝ → ℝ) (L : ℕ)
    (x : T3) (m : ℕ → ℕ → ℕ → Bool) : Except String (T3 × T4) := do
  let _ ← pyCallBoundArity 2 2 "forward"
  let r ← mha_forward cfg lp.mha L x x x m
  let y := pwff_forward lp.ffn erf r.1
  pure (y, r.2)

/-- The encoder loop of BERT.forward (lines 227-228): thread the hidden
state through the layers, passing the same mask to each. -/
def encoderStack (cfg : Config) (ls : List EncParams) (erf : ℝ → ℝ) (L : ℕ)
    (x : T3) (m : ℕ → ℕ → ℕ → Bool) : Except String T3 :=
  match ls with
  | [] => pure x
  | lp :: rest => do
      let r ← encoderLayerCall cfg lp erf L x m
      encoderStack cfg rest erf L r.1 m

/-- The learned state of BERT (allocated once in __init__). -/
structure BertParams where
  emb : EmbParams
  layers : List EncParams
  fc : LinearP
  linear : LinearP
  normW : ℕ → ℝ
  normB : ℕ → ℝ
  classifier : LinearP
  decoderWeight : ℕ → ℕ → ℝ
  decoderBias : ℕ → ℝ

/-- The module-scope functions of pytorch_bert.py that take two token-id
sequences and return a mask: only get_attention_pad_mask (line 63) is
defined; no get_attn_pad_mask exists at module scope. -/
def maskBuilders :
    List (String × ((ℕ → ℕ → ℕ) → (ℕ → ℕ → ℕ) → (ℕ → ℕ → ℕ → Bool))) :=
  [("get_attention_pad_mask", get_attention_pad_mask)]

/-- BERT.forward (lines 224-240): embedding (line 225), pad-mask
construction via the module-scope name get_attn_pad_mask (line 226),
the encoder loop (lines 227-228), the classification head (lines
231-232) and the reconstruction head (lines 234-238). -/
def bert_forward (cfg : Config) (p : BertParams) (erf : ℝ → ℝ)
    (inputIds segIds maskedPos : ℕ → ℕ → ℕ) :
    Except String (T3 × (ℕ → ℕ → ℝ)) := do
  let output0 : T3 := fun b l => embeddingApply cfg p.emb inputIds segIds b l
  let buildMask ← pyLookup maskBuilders "get_attn_pad_mask"
  let encMask := buildMask inputIds inputIds
  let output ← encoderStack cfg p.layers erf cfg.maxlen output0 encMask
  let hPooled : ℕ → ℕ → ℝ := fun b i => Real.tanh (applyLinear p.fc (output b 0) i)
  let logitsClsf : ℕ → ℕ → ℝ := fun b c => applyLinear p.classifier (hPooled b) c
  let hMasked : T3 := fun b k => output b (maskedPos b k)
  let hMasked2 : T3 := fun b k =>
    layerNormApply cfg.d_model p.normW p.normB
      (fun i => gelu erf (applyLinear p.linear (hMasked b k) i))
  let logitsLm : T3 := fun b k v =>
    (∑ i ∈ Finset.range cfg.d_model, p.decoderWeight v i * hMasked2 b k i) +
      p.decoderBias v
  pure (logitsLm, logitsClsf)

end

/-!
Concrete values used to evaluate the model on specific inputs.
-/

noncomputable section

def zeroV : ℕ → ℝ := fun _ => 0

def zeroM : ℕ → ℕ → ℝ := fun _ _ => 0

def zeroT3 : T3 := fun _ _ _ => 0

def onesT3 : T3 := fun _ _ _ => 1

def zeroT4 : T4 := fun _ _ _ _ => 0

def falseMask3 : ℕ → ℕ → ℕ → Bool := fun _ _ _ => false

def falseMask4 : ℕ → ℕ → ℕ → ℕ → Bool := fun _ _ _ _ => false

/-- A mask whose key position 1 is padding and key position 0 is real. -/
def maskKey1 : ℕ → ℕ → ℕ → ℕ → Bool := fun _ _ _ j => j == 1

def zeroLin : LinearP := ⟨1, 1, zeroM, none⟩

def trivEmb : EmbParams := ⟨zeroM, zeroM, zeroM, zeroV, zeroV⟩

def trivMha : MhaParams := ⟨zeroLin, zeroLin, zeroLin⟩

def trivPwff : PwffParams := ⟨zeroLin, zeroLin⟩

def trivEnc : EncParams := ⟨trivMha, trivPwff⟩

def trivBert : BertParams :=
  ⟨trivEmb, [trivEnc], zeroLin, zeroLin, zeroV, zeroV, zeroLin, zeroM, zeroV⟩

def erfZero : ℝ → ℝ := fun _ => 0

/-- The hyperparameter values the script sets at lines 244-252. -/
def cfgScript : Config := ⟨30, 6, 5, 12, 12, 768, 3072, 64, 64, 2, 29⟩

/-- A width-1 configuration, to evaluate the projection layers. -/
def cfgOne : Config := ⟨30, 6, 5, 12, 12, 1, 4, 1, 1, 2, 29⟩

/-- A stream whose every value is 501: every drawn parameter is 1/1000. -/
def rng501 : Rng := ⟨fun _ => 501, 0⟩

def zeroIds : ℕ → ℕ → ℕ := fun _ _ => 0

/-- A fixed-shape input row [CLS] [SEP] [SEP] [PAD] [PAD] ...: a sequence
with zero maskable positions beyond the special tokens. -/
def idsBoundary : ℕ → ℕ → ℕ := fun _ l => if l = 0 then 1 else if l ≤ 2 then 2 else 0

end

/-- A tiny make_batch scenario: two one-word sentences. -/
def cfgMB : Config := ⟨5, 2, 1, 1, 1, 1, 1, 1, 1, 2, 6⟩

def tlMB : List (List ℕ) := [[4], [5]]

def streamMB : List ℕ := [0, 0, 0, 0, 0, 0, 1, 0, 0, 0]

def rngMB : Rng := ⟨fun n => streamMB.getD n 0, 0⟩

def batchMB : List BatchExample :=
  [⟨[1, 3, 2, 4, 2], [0, 0, 0, 1, 1], [4], [1], false⟩,
   ⟨[1, 3, 2, 5, 2], [0, 0, 0, 1, 1], [4], [1], true⟩]

/-!
Helper lemmas.
-/

lemma heapWriteEntry_hit (hp : Heap) (c i j : ℕ) (v : ℚ) :
    heapWriteEntry hp c i j v c i j = v := by
  unfold heapWriteEntry
  rw [if_pos ⟨rfl, rfl, rfl⟩]

lemma heapWriteEntry_ne (hp : Heap) (c c2 i j i2 j2 : ℕ) (v : ℚ) (h : c2 ≠ c) :
    heapWriteEntry hp c i j v c2 i2 j2 = hp c2 i2 j2 := by
  unfold heapWriteEntry
  rw [if_neg]
  exact fun hc => h hc.1

lemma getD_mem_of_lt {α : Type} (d : α) :
    ∀ (l : List α) (i : ℕ), i < l.length → l.getD i d ∈ l := by
  intro l
  induction l with
  | nil => intro i hi; simp at hi
  | cons a t ih =>
      intro i hi
      cases i with
      | zero => simp
      | succ n =>
          rw [List.getD_cons_succ]
          exact List.mem_cons_of_mem a (ih n (by simpa using hi))

lemma candPositions_ge (l : List ℕ) :
    ∀ (i : ℕ), ∀ x ∈ candPositions l i, i ≤ x := by
  induction l with
  | nil => intro i x hx; simp [candPositions] at hx
  | cons t rest ih =>
      intro i x hx
      simp only [candPositions] at hx
      split at hx
      · rcases List.mem_cons.1 hx with h1 | h2
        · omega
        · exact le_trans (Nat.le_succ i) (ih (i + 1) x h2)
      · exact le_trans (Nat.le_succ i) (ih (i + 1) x hx)

lemma candPositions_append (l1 l2 : List ℕ) :
    ∀ i, candPositions (l1 ++ l2) i =
      candPositions l1 i ++ candPositions l2 (i + l1.length) := by
  induction l1 with
  | nil => intro i; simp [candPositions]
  | cons t rest ih =>
      intro i
      simp only [List.cons_append, candPositions, List.append_eq]
      have harith : i + 1 + rest.length = i + (rest.length + 1) := by omega
      split
      · rw [ih (i + 1)]
        simp only [List.length_cons, List.cons_append]
        rw [harith]
      · rw [ih (i + 1)]
        simp only [List.length_cons]
        rw [harith]

lemma candPositions_length_all (l : List ℕ) (hall : ∀ t ∈ l, t ≠ 1 ∧ t ≠ 2) :
    ∀ i, (candPositions l i).length = l.length := by
  induction l with
  | nil => intro i; simp [candPositions]
  | cons t rest ih =>
      intro i
      simp only [candPositions]
      rw [if_pos (hall t (List.mem_cons_self t rest))]
      simp only [List.length_cons]
      rw [ih (fun x hx => hall x (List.mem_cons_of_mem t hx)) (i + 1)]

lemma pickOut_fst_mem (l : List ℕ) (hl : l ≠ []) (k : ℕ) : (pickOut l k).1 ∈ l := by
  unfold pickOut
  exact getD_mem_of_lt 0 l _ (Nat.mod_lt k (List.length_pos.2 hl))

lemma pickOut_rest_len (l : List ℕ) (hl : l ≠ []) (k : ℕ) :
    (pickOut l k).2.length = l.length - 1 := by
  unfold pickOut
  have hk : k % l.length < l.length := Nat.mod_lt k (List.length_pos.2 hl)
  simp only [List.length_append, List.length_take, List.length_drop]
  omega

lemma pickOut_rest_subset (l : List ℕ) (k : ℕ) :
    ∀ x ∈ (pickOut l k).2, x ∈ l := by
  unfold pickOut
  intro x hx
  rcases List.mem_append.1 hx with h | h
  · exact List.take_subset _ _ h
  · exact List.drop_subset _ _ h

lemma shuffleModel_length :
    ∀ (f : ℕ) (l : List ℕ) (r : Rng), l.length ≤ f →
      (shuffleModel f l r).1.length = l.length := by
  intro f
  induction f with
  | zero =>
      intro l r h
      have : l = [] := List.length_eq_zero.1 (Nat.le_zero.1 h)
      simp [shuffleModel, this]
  | succ f ih =>
      intro l r h
      by_cases hl : l = []
      · simp [shuffleModel, hl]
      · have hpos := List.length_pos.2 hl
        simp only [shuffleModel, if_neg hl, List.length_cons]
        have hrest := pickOut_rest_len l hl ((rngNext r).1)
        have hle : (pickOut l ((rngNext r).1)).2.length ≤ f := by omega
        rw [ih _ _ hle, hrest]
        omega

lemma shuffleModel_subset :
    ∀ (f : ℕ) (l : List ℕ) (r : Rng), ∀ x ∈ (shuffleModel f l r).1, x ∈ l := by
  intro f
  induction f with
  | zero => intro l r x hx; simp [shuffleModel] at hx
  | succ f ih =>
      intro l r x hx
      by_cases hl : l = []
      · simp [shuffleModel, hl] at hx
      · simp only [shuffleModel, if_neg hl] at hx
        rcases List.mem_cons.1 hx with h | h
        · exact h ▸ pickOut_fst_mem l hl _
        · exact pickOut_rest_subset l _ x (ih _ _ x h)

lemma maskLoop_poss (cfg : Config) :
    ∀ (l ids : List ℕ) (r : Rng), (maskLoop cfg l ids r).poss = l := by
  intro l
  induction l with
  | nil => intro ids r; simp [maskLoop]
  | cons pos rest ih => intro ids r; simp [maskLoop, ih]

lemma maskLoop_toks_length (cfg : Config) :
    ∀ (l ids : List ℕ) (r : Rng), (maskLoop cfg l ids r).toks.length = l.length := by
  intro l
  induction l with
  | nil => intro ids r; simp [maskLoop]
  | cons pos rest ih => intro ids r; simp [maskLoop, ih]

lemma maskLoop_ids_length (cfg : Config) :
    ∀ (l ids : List ℕ) (r : Rng), (maskLoop cfg l ids r).ids.length = ids.length := by
  intro l
  induction l with
  | nil => intro ids r; simp [maskLoop]
  | cons pos rest ih =>
      intro ids r
      simp only [maskLoop]
      rw [ih]
      split
      · simp [List.length_set]
      · split
        · simp [List.length_set]
        · rfl

lemma roundHalfEven_le (n : ℕ) (hn : 2 ≤ n) : roundHalfEven (3 * (n + 3)) 20 ≤ n := by
  simp only [roundHalfEven]
  have hdm := Nat.div_add_mod (3 * (n + 3)) 20
  have hmlt : 3 * (n + 3) % 20 < 20 := Nat.mod_lt _ (by omega)
  split_ifs <;> omega

lemma makeExample_good (cfg : Config) (ta tb : List ℕ) (r : Rng)
    (hta : ta ≠ []) (htb : tb ≠ [])
    (hta2 : ∀ t ∈ ta, t ≠ 1 ∧ t ≠ 2) (htb2 : ∀ t ∈ tb, t ≠ 1 ∧ t ≠ 2)
    (hlen : ta.length + tb.length + 3 ≤ cfg.maxlen)
    (hmp : 1 ≤ cfg.max_pred) (lbl : Bool) :
    goodExample cfg ⟨(makeExample cfg ta tb r).1.input_ids,
                     (makeExample cfg ta tb r).1.segment_ids,
                     (makeExample cfg ta tb r).1.masked_tokens,
                     (makeExample cfg ta tb r).1.masked_pos, lbl⟩ := by
  have hla : 1 ≤ ta.length := List.length_pos.2 hta
  have hlb : 1 ≤ tb.length := List.length_pos.2 htb
  have hids0 : (exIds0 ta tb).length = ta.length + tb.length + 3 := by
    simp only [exIds0, List.length_cons, List.length_append, List.length_nil]
    omega
  have hcand_eq : exCand ta tb = candPositions (ta ++ 2 :: (tb ++ [2])) 1 := by
    simp only [exCand, exIds0, candPositions]
    rw [if_neg (fun h => h.1 rfl)]
  have h2cons : candPositions (2 :: (tb ++ [2])) (1 + ta.length) =
      candPositions (tb ++ [2]) (1 + ta.length + 1) := by
    simp only [candPositions]
    rw [if_neg (fun h => h.2 rfl)]
  have h2sing : candPositions [2] (1 + ta.length + 1 + tb.length) = [] := by
    simp [candPositions]
  have hcand_len : (exCand ta tb).length = ta.length + tb.length := by
    rw [hcand_eq, candPositions_append, h2cons, candPositions_append, h2sing]
    simp only [List.length_append, List.length_nil,
      candPositions_length_all ta hta2, candPositions_length_all tb htb2]
    omega
  have hcand_ge : ∀ x ∈ exCand ta tb, 1 ≤ x := by
    rw [hcand_eq]; exact candPositions_ge _ 1
  have hnp_le : exNPred cfg ta tb ≤ ta.length + tb.length := by
    simp only [exNPred, hids0]
    exact le_trans (min_le_right _ _)
      (max_le (by omega) (roundHalfEven_le _ (by omega)))
  have hnp_mp : exNPred cfg ta tb ≤ cfg.max_pred := min_le_left _ _
  have hsh_len : (shuffleModel (exCand ta tb).length (exCand ta tb) r).1.length =
      (exCand ta tb).length := shuffleModel_length _ _ _ (le_refl _)
  have htake_len :
      ((shuffleModel (exCand ta tb).length (exCand ta tb) r).1.take
        (exNPred cfg ta tb)).length = exNPred cfg ta tb := by
    rw [List.length_take, hsh_len, hcand_len]
    exact min_eq_left hnp_le
  simp only [makeExample, goodExample]
  refine ⟨?_, ?_, ?_, ?_, ?_⟩
  · rw [List.length_append, List.length_replicate, maskLoop_ids_length, hids0]
    omega
  · rw [List.length_append, List.length_replicate, maskLoop_ids_length, hids0]
    simp only [List.length_append, List.length_replicate]
    omega
  · rw [List.length_append, List.length_replicate, maskLoop_toks_length, htake_len]
    omega
  · rw [List.length_append, List.length_replicate, maskLoop_poss, htake_len]
    omega
  · rw [maskLoop_poss]
    have hne : (shuffleModel (exCand ta tb).length (exCand ta tb) r).1.take
        (exNPred cfg ta tb) ≠ [] := by
      have hpos : 0 < ((shuffleModel (exCand ta tb).length (exCand ta tb) r).1.take
          (exNPred cfg ta tb)).length := by
        rw [htake_len]
        exact lt_of_lt_of_le Nat.zero_lt_one (le_min hmp (le_max_left _ _))
      exact List.length_pos.1 hpos
    obtain ⟨p, hp⟩ := List.exists_mem_of_ne_nil _ hne
    refine ⟨p, List.mem_append_left _ hp, ?_⟩
    have hpc : p ∈ exCand ta tb :=
      shuffleModel_subset _ _ _ p (List.take_subset _ _ hp)
    have := hcand_ge p hpc
    omega

lemma exampleFromLists_good (cfg : Config) (tl : List (List ℕ))
    (h1 : ∀ s ∈ tl, s ≠ [])
    (h2 : ∀ s ∈ tl, ∀ t ∈ s, t ≠ 1 ∧ t ≠ 2)
    (h3 : ∀ s1 ∈ tl, ∀ s2 ∈ tl, s1.length + s2.length + 3 ≤ cfg.maxlen)
    (hmp : 1 ≤ cfg.max_pred)
    (ia ib : ℕ) (hia : ia < tl.length) (hib : ib < tl.length) (r : Rng) (lbl : Bool) :
    goodExample cfg
      ⟨(makeExample cfg (tl.getD ia []) (tl.getD ib []) r).1.input_ids,
       (makeExample cfg (tl.getD ia []) (tl.getD ib []) r).1.segment_ids,
       (makeExample cfg (tl.getD ia []) (tl.getD ib []) r).1.masked_tokens,
       (makeExample cfg (tl.getD ia []) (tl.getD ib []) r).1.masked_pos, lbl⟩ := by
  have hma : tl.getD ia [] ∈ tl := getD_mem_of_lt [] tl ia hia
  have hmb : tl.getD ib [] ∈ tl := getD_mem_of_lt [] tl ib hib
  exact makeExample_good cfg _ _ r (h1 _ hma) (h1 _ hmb) (h2 _ hma) (h2 _ hmb)
    (h3 _ hma _ hmb) hmp lbl

lemma makeBatchGo_spec (cfg : Config) (tl : List (List ℕ))
    (htl : tl ≠ [])
    (h1 : ∀ s ∈ tl, s ≠ [])
    (h2 : ∀ s ∈ tl, ∀ t ∈ s, t ≠ 1 ∧ t ≠ 2)
    (h3 : ∀ s1 ∈ tl, ∀ s2 ∈ tl, s1.length + s2.length + 3 ≤ cfg.maxlen)
    (hmp : 1 ≤ cfg.max_pred) :
    ∀ (fuel : ℕ) (acc : List BatchExample) (pos neg : ℕ) (r : Rng)
      (batch : List BatchExample),
      makeBatchGo cfg tl fuel acc pos neg r = some batch →
      pos = (acc.filter (fun e => e.isNext)).length →
      neg = (acc.filter (fun e => !e.isNext)).length →
      pos + neg = acc.length →
      (∀ e ∈ acc, goodExample cfg e) →
      batch.length = cfg.batch_size ∧
      2 * (batch.filter (fun e => e.isNext)).length = cfg.batch_size ∧
      2 * (batch.filter (fun e => !e.isNext)).length = cfg.batch_size ∧
      ∀ e ∈ batch, goodExample cfg e := by
  intro fuel
  induction fuel with
  | zero =>
      intro acc pos neg r batch h hpos hneg hsum hgood
      simp [makeBatchGo] at h
  | succ fuel ih =>
      intro acc pos neg r batch h hpos hneg hsum hgood
      have hlt : 0 < tl.length := List.length_pos.2 htl
      simp only [makeBatchGo] at h
      by_cases hc : 2 * pos ≠ cfg.batch_size ∨ 2 * neg ≠ cfg.batch_size
      · rw [if_pos hc] at h
        split at h
        · -- adjacent sentences, positive half not full: append a True example
          refine ih _ _ _ _ _ h ?_ ?_ ?_ ?_
          · simp [List.filter_append, hpos]
          · simp [List.filter_append, hneg]
          · simp only [List.length_append, List.length_cons, List.length_nil]
            omega
          · intro e he
            rcases List.mem_append.1 he with h' | h'
            · exact hgood e h'
            · have he2 := List.mem_singleton.1 h'
              subst he2
              exact exampleFromLists_good cfg tl h1 h2 h3 hmp _ _
                (Nat.mod_lt _ hlt) (Nat.mod_lt _ hlt) _ true
        · split at h
          · -- non-adjacent sentences, negative half not full: append a False example
            refine ih _ _ _ _ _ h ?_ ?_ ?_ ?_
            · simp [List.filter_append, hpos]
            · simp [List.filter_append, hneg]
            · simp only [List.length_append, List.length_cons, List.length_nil]
              omega
            · intro e he
              rcases List.mem_append.1 he with h' | h'
              · exact hgood e h'
              · have he2 := List.mem_singleton.1 h'
                subst he2
                exact exampleFromLists_good cfg tl h1 h2 h3 hmp _ _
                  (Nat.mod_lt _ hlt) (Nat.mod_lt _ hlt) _ false
          · -- nothing appended
            exact ih _ _ _ _ _ h hpos hneg hsum hgood
      · rw [if_neg hc] at h
        push_neg at hc
        injection h with h'
        subst h'
        refine ⟨by omega, ?_, ?_, hgood⟩
        · rw [← hpos]; exact hc.1
        · rw [← hneg]; exact hc.2

/-!
The claims.
-/

/-- Claim C1.  The claim says ScaledDotProductAttention.forward returns
the pair (context, softmax weights).  It does not: line 139 is
`return score, context, attn`, a 3-tuple whose first name, score, is not
bound in the function (the assigned local is scores), so the forward
raises NameError on every input.  This theorem evaluates the embedded
forward at a concrete input (1x1x1x1 zero tensors, no masking) and
obtains that error. -/
theorem sdpa_forward_returns_error :
    sdpa_forward cfgScript 1 zeroT4 zeroT4 zeroT4 falseMask4 =
      Except.error "NameError: name 'score' is not defined" := rfl

/-- Claim C2.  The claim says BERT.forward builds the pad mask once and
then runs the encoder layers and the two heads.  It does not: line 226
calls get_attn_pad_mask, but the module defines the mask builder as
get_attention_pad_mask (line 63), so the forward raises NameError for
every input before any layer runs (and the layer calls themselves would
raise TypeError, EncoderLayer.forward at line 84 being defined without
self).  This theorem evaluates the embedded forward at a concrete input
and obtains that error. -/
theorem bert_forward_mask_name_error :
    bert_forward cfgScript trivBert erfZero zeroIds zeroIds zeroIds =
      Except.error "NameError: name 'get_attn_pad_mask' is not defined" := rfl

/-- Claim C3.  The claim says two invocations of the forward pass with
the same parameters and inputs yield identical outputs.  The code yields
no outputs at all: every invocation of MultiHeadAttention.forward raises
the NameError propagated from ScaledDotProductAttention (and, were the
name errors fixed, line 120 constructs a fresh randomly initialized
nn.Linear inside forward on every call, consuming the global random
state, so the output would not be a function of parameters and inputs
alone).  This theorem evaluates the embedded forward at a concrete input
and obtains the error. -/
theorem mha_forward_not_yielding_output :
    mha_forward cfgScript trivMha 1 zeroT3 zeroT3 zeroT3 falseMask3 =
      Except.error "NameError: name 'score' is not defined" := rfl

/-- Claim C4.  In BERT.__init__ the decoder weight reference is
re-pointed at the token embedding cell (line 221), so the two are the
same storage: writing any entry through the token embedding reference is
seen identically through the decoder weight reference, while
decoder_bias refers to a distinct cell and is unaffected. -/
theorem decoder_weight_sharing (cfg : Config) :
    (bertInitRefs cfg).decoderW = (bertInitRefs cfg).tokenEmbW ∧
    (bertInitRefs cfg).decoderBias ≠ (bertInitRefs cfg).tokenEmbW ∧
    ∀ (hp : Heap) (i j : ℕ) (v : ℚ),
      heapWriteEntry hp (bertInitRefs cfg).tokenEmbW i j v
        (bertInitRefs cfg).decoderW i j = v ∧
      ∀ i2 j2,
        heapWriteEntry hp (bertInitRefs cfg).tokenEmbW i j v
          (bertInitRefs cfg).decoderBias i2 j2 =
        hp (bertInitRefs cfg).decoderBias i2 j2 := by
  refine ⟨rfl, ?_, fun hp i j v => ⟨?_, fun i2 j2 => ?_⟩⟩
  · show 5 + 10 * cfg.n_layers + 9 ≠ 0
    omega
  · exact heapWriteEntry_hit hp _ i j v
  · exact heapWriteEntry_ne hp _ _ i j i2 j2 v
      (by show 5 + 10 * cfg.n_layers + 9 ≠ 0; omega)

/-- Claim C5.  The claim says MultiHeadAttention.forward returns the
layer normalization of (projected context + original Query input), with
the Query input's shape.  It returns nothing: the
ScaledDotProductAttention call at line 118 raises NameError (undefined
name score), so lines 119-122 never execute; moreover line 118 binds the
callee's intended 3-tuple to the two targets (context, attn), which
could not succeed either.  This theorem evaluates the embedded forward
at a concrete input (all-ones 2-position sequences) and obtains the
error. -/
theorem mha_forward_no_normalized_output :
    mha_forward cfgScript trivMha 2 onesT3 onesT3 onesT3 falseMask3 =
      Except.error "NameError: name 'score' is not defined" := rfl

/-- Claim C6, counterexample.  The claim says the Query/Key/Value
projections have no bias terms, i.e. map x to W x with no additive
constant.  But lines 102-104 construct nn.Linear without bias=False, so
each projection carries a bias vector: under the concrete random stream
rng501 the constructed WQ maps the zero vector to a nonzero value, while
W times the zero vector is zero. -/
theorem wqkv_bias_counterexample :
    (mhaInit cfgOne rng501).1.WQ.bias.isSome = true ∧
    applyLinear (mhaInit cfgOne rng501).1.WQ zeroV 0 ≠
      matVec (mhaInit cfgOne rng501).1.WQ zeroV 0 := by
  constructor
  · rfl
  · have h1 : applyLinear (mhaInit cfgOne rng501).1.WQ zeroV 0 = 1 / 1000 := by
      simp [applyLinear, biasVal, mhaInit, nnLinearInit, drawAt, zeroV, cfgOne, rng501]
      norm_num
    have h2 : matVec (mhaInit cfgOne rng501).1.WQ zeroV 0 = 0 := by
      simp [matVec, mhaInit, nnLinearInit, drawAt, zeroV, cfgOne, rng501]
    rw [h1, h2]
    norm_num

/-- Claim C6, amended.  The Query, Key and Value projections built by
MultiHeadAttention.__init__ are affine maps with a learned weight matrix
and a learned bias vector (nn.Linear's default bias=True): each maps x
to W x + b. -/
theorem wqkv_affine_with_bias (cfg : Config) (r : Rng) (x : ℕ → ℝ) (o : ℕ) :
    ((mhaInit cfg r).1.WQ.bias.isSome = true ∧
     (mhaInit cfg r).1.WK.bias.isSome = true ∧
     (mhaInit cfg r).1.WV.bias.isSome = true) ∧
    applyLinear (mhaInit cfg r).1.WQ x o =
      matVec (mhaInit cfg r).1.WQ x o + biasVal (mhaInit cfg r).1.WQ o ∧
    applyLinear (mhaInit cfg r).1.WK x o =
      matVec (mhaInit cfg r).1.WK x o + biasVal (mhaInit cfg r).1.WK o ∧
    applyLinear (mhaInit cfg r).1.WV x o =
      matVec (mhaInit cfg r).1.WV x o + biasVal (mhaInit cfg r).1.WV o := by
  refine ⟨⟨?_, ?_, ?_⟩, rfl, rfl, rfl⟩ <;> simp [mhaInit, nnLinearInit]

/-- Claim C7.  The position-wise feed-forward sublayer computes
fc2(gelu(fc1(x))) independently at every (batch, position) pair - the
output at a position depends only on the input at that position - where
gelu is exactly the spec's formula x * 0.5 * (1 + erf(x / sqrt 2)), and
the output is the bare composition: no residual term and no
normalization is applied. -/
theorem pwff_gelu_composition (p : PwffParams) (erf : ℝ → ℝ) (x y : T3)
    (b l b2 l2 : ℕ) (h : x b l = y b2 l2) :
    (∀ i, pwff_forward p erf x b l i = pwff_forward p erf y b2 l2 i) ∧
    (∀ i, pwff_forward p erf x b l i =
      applyLinear p.fc2 (fun j => geluSpec erf (applyLinear p.fc1 (x b l) j)) i) := by
  constructor
  · intro i
    simp only [pwff_forward, pwffApply, h]
  · intro i
    rfl

theorem pwff_gelu_composition_witness :
    (zeroT3 0 0 = zeroT3 1 1) ∧
    ((∀ i, pwff_forward trivPwff erfZero zeroT3 0 0 i =
        pwff_forward trivPwff erfZero zeroT3 1 1 i) ∧
     (∀ i, pwff_forward trivPwff erfZero zeroT3 0 0 i =
        applyLinear trivPwff.fc2
          (fun j => geluSpec erfZero (applyLinear trivPwff.fc1 (zeroT3 0 0) j)) i)) :=
  ⟨rfl, pwff_gelu_composition trivPwff erfZero zeroT3 zeroT3 0 0 1 1 rfl⟩

/-- Claim C8.  For any attention row with at least one unmasked key
position, the softmax weights computed at line 137 sum to exactly 1, are
all nonnegative, and every masked key position's weight is bounded by
exp(-10^9 - s) for the scaled score s of any unmasked position - the
claim's "approximately 0", made precise: the masked score is the
sentinel -10^9, so against any unmasked score of ordinary magnitude the
masked weight is at most about exp(-10^9).  (The weights are the value
the function would return; the broken return statement itself is claim
C1.) -/
theorem sdpa_attn_row_properties (cfg : Config) (lk : ℕ) (Q K : T4)
    (mask : ℕ → ℕ → ℕ → ℕ → Bool) (b h i : ℕ)
    (hm : ∃ j0, j0 < lk ∧ mask b h i j0 = false) :
    (∑ j ∈ Finset.range lk, sdpaAttn cfg lk Q K mask b h i j) = 1 ∧
    (∀ j, 0 ≤ sdpaAttn cfg lk Q K mask b h i j) ∧
    (∀ j j0, j0 < lk → mask b h i j = true → mask b h i j0 = false →
      sdpaAttn cfg lk Q K mask b h i j ≤
        Real.exp (-(10 ^ 9 : ℝ) - sdpaScores cfg Q K b h i j0)) := by
  obtain ⟨j0, hj0, hmf⟩ := hm
  have hZpos : 0 < ∑ k ∈ Finset.range lk,
      Real.exp (sdpaMaskedScores cfg Q K mask b h i k) :=
    Finset.sum_pos' (fun k _ => (Real.exp_pos _).le)
      ⟨j0, Finset.mem_range.2 hj0, Real.exp_pos _⟩
  refine ⟨?_, ?_, ?_⟩
  · simp only [sdpaAttn]
    rw [← Finset.sum_div, div_self hZpos.ne']
  · intro j
    exact div_nonneg (Real.exp_pos _).le hZpos.le
  · intro j j1 hj1 hmt hmf1
    have hnum : sdpaMaskedScores cfg Q K mask b h i j = -(10 ^ 9 : ℝ) := by
      simp [sdpaMaskedScores, hmt]
    have hden : sdpaMaskedScores cfg Q K mask b h i j1 =
        sdpaScores cfg Q K b h i j1 := by
      simp [sdpaMaskedScores, hmf1]
    have hterm : Real.exp (sdpaMaskedScores cfg Q K mask b h i j1) ≤
        ∑ k ∈ Finset.range lk, Real.exp (sdpaMaskedScores cfg Q K mask b h i k) :=
      Finset.single_le_sum (fun k _ => (Real.exp_pos _).le) (Finset.mem_range.2 hj1)
    have hstep : sdpaAttn cfg lk Q K mask b h i j ≤
        Real.exp (-(10 ^ 9 : ℝ)) / Real.exp (sdpaMaskedScores cfg Q K mask b h i j1) := by
      simp only [sdpaAttn, hnum]
      exact div_le_div_of_nonneg_left (Real.exp_pos _).le (Real.exp_pos _) hterm
    calc sdpaAttn cfg lk Q K mask b h i j ≤
        Real.exp (-(10 ^ 9 : ℝ)) / Real.exp (sdpaMaskedScores cfg Q K mask b h i j1) := hstep
      _ = Real.exp (-(10 ^ 9 : ℝ) - sdpaScores cfg Q K b h i j1) := by
          rw [← Real.exp_sub, hden]

theorem sdpa_attn_row_properties_witness :
    (∃ j0, j0 < 2 ∧ maskKey1 0 0 0 j0 = false) ∧
    ((∑ j ∈ Finset.range 2, sdpaAttn cfgScript 2 zeroT4 zeroT4 maskKey1 0 0 0 j) = 1 ∧
     (∀ j, 0 ≤ sdpaAttn cfgScript 2 zeroT4 zeroT4 maskKey1 0 0 0 j) ∧
     (∀ j j0, j0 < 2 → maskKey1 0 0 0 j = true → maskKey1 0 0 0 j0 = false →
       sdpaAttn cfgScript 2 zeroT4 zeroT4 maskKey1 0 0 0 j ≤
         Real.exp (-(10 ^ 9 : ℝ) - sdpaScores cfgScript zeroT4 zeroT4 0 0 0 j0))) :=
  ⟨⟨0, by decide, rfl⟩,
   sdpa_attn_row_properties cfgScript 2 zeroT4 zeroT4 maskKey1 0 0 0 ⟨0, by decide, rfl⟩⟩

/-- Claim C9.  The claim says an input whose masked-position list holds
only the pad value still yields reconstruction logits of the configured
shape.  It yields nothing: BERT.forward raises NameError (undefined
get_attn_pad_mask, line 226) before the reconstruction head is reached,
for this boundary input as for every other.  This theorem evaluates the
embedded forward on a [CLS] [SEP] [SEP] [PAD]... sequence with an
all-pad masked-position list and obtains the error. -/
theorem bert_forward_zero_maskable_raises :
    bert_forward cfgScript trivBert erfZero idsBoundary zeroIds zeroIds =
      Except.error "NameError: name 'get_attn_pad_mask' is not defined" := rfl

/-- Claim C10.  Whenever make_batch returns (the while loop reaches its
exit condition within the fuel), over any corpus of nonempty sentences
whose word ids avoid the [CLS]/[SEP] ids, whose concatenations fit in
maxlen, and with max_pred at least 1: the batch has exactly batch_size
examples, exactly half labelled True and half False, every example's
input_ids and segment_ids have length exactly maxlen, its
masked_tokens and masked_pos have length exactly max_pred, and at least
one masked_pos entry is a genuine (nonzero) position. -/
theorem make_batch_shape_invariants (cfg : Config) (tl : List (List ℕ))
    (fuel : ℕ) (r : Rng) (batch : List BatchExample)
    (htl : tl ≠ [])
    (h1 : ∀ s ∈ tl, s ≠ [])
    (h2 : ∀ s ∈ tl, ∀ t ∈ s, t ≠ 1 ∧ t ≠ 2)
    (h3 : ∀ s1 ∈ tl, ∀ s2 ∈ tl, s1.length + s2.length + 3 ≤ cfg.maxlen)
    (hmp : 1 ≤ cfg.max_pred)
    (h : makeBatch cfg tl fuel r = some batch) :
    batch.length = cfg.batch_size ∧
    2 * (batch.filter (fun e => e.isNext)).length = cfg.batch_size ∧
    2 * (batch.filter (fun e => !e.isNext)).length = cfg.batch_size ∧
    ∀ e ∈ batch,
      e.input_ids.length = cfg.maxlen ∧
      e.segment_ids.length = cfg.maxlen ∧
      e.masked_tokens.length = cfg.max_pred ∧
      e.masked_pos.length = cfg.max_pred ∧
      ∃ p ∈ e.masked_pos, p ≠ 0 := by
  have hmain := makeBatchGo_spec cfg tl htl h1 h2 h3 hmp fuel [] 0 0 r batch h
    rfl rfl rfl (by intro e he; simp at he)
  exact ⟨hmain.1, hmain.2.1, hmain.2.2.1, fun e he => hmain.2.2.2 e he⟩

theorem make_batch_shape_invariants_witness :
    (tlMB ≠ [] ∧
     (∀ s ∈ tlMB, s ≠ []) ∧
     (∀ s ∈ tlMB, ∀ t ∈ s, t ≠ 1 ∧ t ≠ 2) ∧
     (∀ s1 ∈ tlMB, ∀ s2 ∈ tlMB, s1.length + s2.length + 3 ≤ cfgMB.maxlen) ∧
     1 ≤ cfgMB.max_pred ∧
     makeBatch cfgMB tlMB 3 rngMB = some batchMB) ∧
    (batchMB.length = cfgMB.batch_size ∧
     2 * (batchMB.filter (fun e => e.isNext)).length = cfgMB.batch_size ∧
     2 * (batchMB.filter (fun e => !e.isNext)).length = cfgMB.batch_size ∧
     ∀ e ∈ batchMB,
       e.input_ids.length = cfgMB.maxlen ∧
       e.segment_ids.length = cfgMB.maxlen ∧
       e.masked_tokens.length = cfgMB.max_pred ∧
       e.masked_pos.length = cfgMB.max_pred ∧
       ∃ p ∈ e.masked_pos, p ≠ 0) :=
  ⟨⟨by decide, by decide, by decide, by decide, by decide, by decide⟩,
   make_batch_shape_invariants cfgMB tlMB 3 rngMB batchMB
     (by decide) (by decide) (by decide) (by decide) (by decide) (by decide)⟩
